import Mathlib

/-!
Shallow embedding of the classification-and-fan-out metrics loader
(package `pkg/metrics` of droslean/ci-metrics-bigquery: `bigquery.go` and
`export.go`), together with theorems settling the specification claims.

Modelling conventions:
* Go strings are `String` (and `List Char` where suffix reasoning is
  needed, for the filename predicate).
* Go `float64` fields are `Rat`: only their zero test matters to the
  serialization logic, never floating-point arithmetic.
* Go `time.Time` is an abstract `GoTime` value.  In Go's `encoding/json`,
  the `omitempty` option omits only empty basic values (false, 0, "",
  nil/empty map, slice or pointer); a struct value such as `time.Time` is
  never considered empty, so a `time.Time` field tagged `omitempty` is
  still always emitted.  The marshalling functions below reproduce
  exactly that behaviour.
* A serialized JSON record is a `JValue`; an NDJSON file is the list of
  the JSON values of its lines (textual rendering is bijective on values,
  so presence-of-key and round-trip properties are faithfully stated at
  the value level).
* The BigQuery client and the filesystem are external collaborators and
  are modelled as oracles (`BQEnv`, `ExportEnv`) determining the outcome
  of each create/insert/mkdir/create-file call; the dispatcher's observable
  behaviour is its trace of issued calls, the resulting file-system state
  and the returned error (a `String` built with the exact wrapping
  messages of the source).
-/

namespace CIMetricsBQ

/-- Abstract stand-in for Go `time.Time`; only equality of values matters. -/
structure GoTime where
  val : Int
deriving DecidableEq, Repr

/-- The Go zero `time.Time`. -/
def GoTime.zero : GoTime := ⟨0⟩

/-- JSON values, as produced by the serialization boundary. -/
inductive JValue where
  | jstr (s : String)
  | jnum (q : Rat)
  | jint (n : Int)
  | jbool (b : Bool)
  | jtime (t : GoTime)
  | jobj (fields : List (String × JValue))

/-- Keys of a serialized JSON object (empty for non-objects). -/
def objKeys : JValue → List String
  | .jobj fields => fields.map Prod.fst
  | _ => []

/-- From bigquery.go: `LeaseEventUnion` holds all fields from both
`LeaseAcquisitionMetricEvent` and `LeaseReleaseMetricEvent`.
All fields are value-typed (no pointers); json tags per source. -/
structure LeaseEventUnion where
  leaseName : String                    -- json:"name,omitempty"
  slice : String                        -- json:"slice,omitempty"
  region : String                       -- json:"region,omitempty"
  rawLeaseName : String                 -- json:"raw_lease_name,omitempty"
  acquisitionDurationSeconds : Rat      -- json:"acquisition_duration_seconds,omitempty"
  releaseDurationSeconds : Rat          -- json:"release_duration_seconds,omitempty"
  leasesRemainingAtAcquisition : Int    -- json:"leases_remaining_at_acquisition,omitempty"
  leasesAvailableAtRelease : Int        -- json:"leases_available_at_release,omitempty"
  leasesTotal : Int                     -- json:"leases_total,omitempty"
  released : Bool                       -- json:"released,omitempty"
  error : String                        -- json:"error,omitempty"
  timestamp : GoTime                    -- json:"timestamp"  (no omitempty)

/-- The Go zero value of `LeaseEventUnion` (a freshly decoded record with
no field set). -/
def LeaseEventUnion.zero : LeaseEventUnion :=
  ⟨"", "", "", "", 0, 0, 0, 0, 0, false, "", GoTime.zero⟩

/-- From bigquery.go: `ImageEventUnion` holds all fields from both
`ImageStreamEvent` and `TagImportEvent`.  The two open-ended
`map[string]any` side channels are association lists of JSON values. -/
structure ImageEventUnion where
  namespc : String                      -- json:"namespace,omitempty"
  imageStreamName : String              -- json:"image_stream_name,omitempty"
  fullName : String                     -- json:"full_name,omitempty"
  tagName : String                      -- json:"tag_name,omitempty"
  fullTagName : String                  -- json:"full_tag_name,omitempty"
  sourceImage : String                  -- json:"source_image,omitempty"
  sourceImageKind : String              -- json:"source_image_kind,omitempty"
  startTime : GoTime                    -- json:"start_time,omitempty"  (struct: never omitted)
  completionTime : GoTime               -- json:"completion_time,omitempty"  (struct: never omitted)
  durationSeconds : Rat                 -- json:"duration_seconds,omitempty"
  retryCount : Int                      -- json:"retry_count,omitempty"
  success : Bool                        -- json:"success,omitempty"
  error : String                        -- json:"error,omitempty"
  imageStreamDetails : List (String × JValue)   -- json:"image_stream_details,omitempty"
  additionalContext : List (String × JValue)    -- json:"additional_context,omitempty"
  timestamp : GoTime                    -- json:"timestamp"  (no omitempty)

/-- The Go zero value of `ImageEventUnion`. -/
def ImageEventUnion.zero : ImageEventUnion :=
  ⟨"", "", "", "", "", "", "", GoTime.zero, GoTime.zero, 0, 0, false, "", [], [], GoTime.zero⟩

/-- Go `encoding/json` marshalling of a `LeaseEventUnion`: each
`omitempty` basic field is emitted iff it differs from its zero value;
`timestamp` has no `omitempty` and is always emitted.  Field order is the
struct declaration order, as in Go. -/
def marshalLease (r : LeaseEventUnion) : JValue :=
  .jobj (
    (if r.leaseName = "" then [] else [("name", JValue.jstr r.leaseName)]) ++
    (if r.slice = "" then [] else [("slice", JValue.jstr r.slice)]) ++
    (if r.region = "" then [] else [("region", JValue.jstr r.region)]) ++
    (if r.rawLeaseName = "" then [] else [("raw_lease_name", JValue.jstr r.rawLeaseName)]) ++
    (if r.acquisitionDurationSeconds = 0 then [] else
      [("acquisition_duration_seconds", JValue.jnum r.acquisitionDurationSeconds)]) ++
    (if r.releaseDurationSeconds = 0 then [] else
      [("release_duration_seconds", JValue.jnum r.releaseDurationSeconds)]) ++
    (if r.leasesRemainingAtAcquisition = 0 then [] else
      [("leases_remaining_at_acquisition", JValue.jint r.leasesRemainingAtAcquisition)]) ++
    (if r.leasesAvailableAtRelease = 0 then [] else
      [("leases_available_at_release", JValue.jint r.leasesAvailableAtRelease)]) ++
    (if r.leasesTotal = 0 then [] else [("leases_total", JValue.jint r.leasesTotal)]) ++
    (if r.released = false then [] else [("released", JValue.jbool r.released)]) ++
    (if r.error = "" then [] else [("error", JValue.jstr r.error)]) ++
    [("timestamp", JValue.jtime r.timestamp)])

/-- Go `encoding/json` marshalling of an `ImageEventUnion`.  `start_time`
and `completion_time` carry `omitempty` in the source, but being struct
values (`time.Time`) they are never "empty" for `encoding/json` and are
therefore always emitted; the map fields are omitted when empty;
`timestamp` is always emitted. -/
def marshalImage (r : ImageEventUnion) : JValue :=
  .jobj (
    (if r.namespc = "" then [] else [("namespace", JValue.jstr r.namespc)]) ++
    (if r.imageStreamName = "" then [] else [("image_stream_name", JValue.jstr r.imageStreamName)]) ++
    (if r.fullName = "" then [] else [("full_name", JValue.jstr r.fullName)]) ++
    (if r.tagName = "" then [] else [("tag_name", JValue.jstr r.tagName)]) ++
    (if r.fullTagName = "" then [] else [("full_tag_name", JValue.jstr r.fullTagName)]) ++
    (if r.sourceImage = "" then [] else [("source_image", JValue.jstr r.sourceImage)]) ++
    (if r.sourceImageKind = "" then [] else [("source_image_kind", JValue.jstr r.sourceImageKind)]) ++
    [("start_time", JValue.jtime r.startTime)] ++
    [("completion_time", JValue.jtime r.completionTime)] ++
    (if r.durationSeconds = 0 then [] else [("duration_seconds", JValue.jnum r.durationSeconds)]) ++
    (if r.retryCount = 0 then [] else [("retry_count", JValue.jint r.retryCount)]) ++
    (if r.success = false then [] else [("success", JValue.jbool r.success)]) ++
    (if r.error = "" then [] else [("error", JValue.jstr r.error)]) ++
    (if r.imageStreamDetails.isEmpty then [] else
      [("image_stream_details", JValue.jobj r.imageStreamDetails)]) ++
    (if r.additionalContext.isEmpty then [] else
      [("additional_context", JValue.jobj r.additionalContext)]) ++
    [("timestamp", JValue.jtime r.timestamp)])

/-- The seven record categories of a `MetricsData` document. -/
inductive Category where
  | images
  | nodes
  | insights
  | leases
  | builds
  | pods
  | events
deriving DecidableEq, Repr

/-- The BigQuery destination table name of each category, as hard-coded in
`dataset.Table(...)` of bigquery.go. -/
def tableName : Category → String
  | .images => "images"
  | .nodes => "nodes"
  | .insights => "test_platform_insights"
  | .leases => "leases"
  | .builds => "openshift_builds"
  | .pods => "pods"
  | .events => "events"

/-- The short category noun used in every wrapping message
("failed to load images", "failed to insert builds", ...). -/
def catNoun : Category → String
  | .images => "images"
  | .nodes => "nodes"
  | .insights => "insights"
  | .leases => "leases"
  | .builds => "builds"
  | .pods => "pods"
  | .events => "events"

/-- The export file name of each category, as hard-coded in the
`exportTable(exportDir, "....json", ...)` calls of export.go. -/
def exportFileName : Category → String
  | .images => "images.json"
  | .nodes => "nodes.json"
  | .insights => "test_platform_insights.json"
  | .leases => "leases.json"
  | .builds => "openshift_builds.json"
  | .pods => "pods.json"
  | .events => "events.json"

/-- The order in which `LoadMetricsData` (bigquery.go lines 93-119)
processes the categories: images, nodes, insights, leases, builds, pods,
events. -/
def loadOrder : List Category :=
  [.images, .nodes, .insights, .leases, .builds, .pods, .events]

/-- The order in which `ExportMetricsFromGCS` (export.go lines 44-91)
processes the categories: images, nodes, leases, builds, pods, insights,
events. -/
def exportOrder : List Category :=
  [.images, .nodes, .leases, .builds, .pods, .insights, .events]

/-- The decoded metrics document (`MetricsData` of bigquery.go).  The
lease and image categories carry union records; the five pass-through
categories (`Event`, `NodeEvent`, `BuildEvent`, `PodLifecycleMetricsEvent`,
`InsightsEvent` from ci-tools) are opaque payloads the core routes without
inspecting, modelled as their JSON values. -/
structure MetricsData where
  events : List JValue
  images : List ImageEventUnion
  leases : List LeaseEventUnion
  nodes : List JValue
  openshiftBuilds : List JValue
  pods : List JValue
  testPlatformInsights : List JValue

/-- A document with all seven category sequences empty. -/
def MetricsData.empty : MetricsData := ⟨[], [], [], [], [], [], []⟩

/-- Number of records a document holds in a category. -/
def MetricsData.count (d : MetricsData) : Category → Nat
  | .images => d.images.length
  | .nodes => d.nodes.length
  | .insights => d.testPlatformInsights.length
  | .leases => d.leases.length
  | .builds => d.openshiftBuilds.length
  | .pods => d.pods.length
  | .events => d.events.length

/-- The serialized records of a category, in document order (union
categories go through their marshaller, pass-through categories are
already JSON values). -/
def MetricsData.records (d : MetricsData) : Category → List JValue
  | .images => d.images.map marshalImage
  | .nodes => d.nodes
  | .insights => d.testPlatformInsights
  | .leases => d.leases.map marshalLease
  | .builds => d.openshiftBuilds
  | .pods => d.pods
  | .events => d.events

/-- Errors returned by the external collaborators: either a
`googleapi.Error` carrying an HTTP status code, or any other error. -/
inductive GoErr where
  | apiError (code : Nat) (msg : String)
  | simpleError (msg : String)
deriving DecidableEq, Repr

/-- Rendering of an error, used when wrapping with `%w`. -/
def GoErr.render : GoErr → String
  | .apiError _ m => m
  | .simpleError m => m

/-- From bigquery.go `isAlreadyExistsError`: true iff the error is a
`googleapi.Error` whose code is HTTP 409 Conflict (nil errors and
non-API errors are not "already exists"). -/
def isAlreadyExistsError : Option GoErr → Bool
  | none => false
  | some (.apiError code _) => code == 409
  | some (.simpleError _) => false

/-- Oracle for the BigQuery collaborator: outcome of schema inference,
of the `table.Create` call and of the `inserter.Put` call for each
category (`none` = success). -/
structure BQEnv where
  inferSchemaErr : Category → Option GoErr
  createTableErr : Category → Option GoErr
  putErr : Category → Option GoErr

/-- A `BQEnv` in which every call succeeds. -/
def BQEnv.allOk : BQEnv := ⟨fun _ => none, fun _ => none, fun _ => none⟩

/-- Observable BigQuery calls issued by the loader. -/
inductive BQCall where
  | createTable (table : String)
  | put (table : String) (rows : Nat)
deriving DecidableEq, Repr

/-- One per-category load (the common body of `loadImages`, `loadNodes`,
`loadInsights`, `loadLeases`, `loadBuilds`, `loadPods`, `loadEvents` in
bigquery.go): skip when the sequence is empty; infer the schema; call
`table.Create` (tolerating an already-exists conflict); call
`inserter.Put` with every record.  Returns the trace of issued calls and
the error, wrapped exactly as the source wraps it. -/
def loadTable (env : BQEnv) (c : Category) (n : Nat) : List BQCall × Option String :=
  if n = 0 then ([], none)
  else
    match env.inferSchemaErr c with
    | some e => ([], some ("failed to infer schema: " ++ e.render))
    | none =>
      match env.createTableErr c with
      | some e =>
        if isAlreadyExistsError (some e) then
          match env.putErr c with
          | some e2 =>
            ([BQCall.createTable (tableName c), BQCall.put (tableName c) n],
             some ("failed to insert " ++ catNoun c ++ ": " ++ e2.render))
          | none =>
            ([BQCall.createTable (tableName c), BQCall.put (tableName c) n], none)
        else
          ([BQCall.createTable (tableName c)],
           some ("failed to create table: " ++ e.render))
      | none =>
        match env.putErr c with
        | some e2 =>
          ([BQCall.createTable (tableName c), BQCall.put (tableName c) n],
           some ("failed to insert " ++ catNoun c ++ ": " ++ e2.render))
        | none =>
          ([BQCall.createTable (tableName c), BQCall.put (tableName c) n], none)

/-- Sequential dispatch over a list of categories, mirroring the chain of
`if err := b.loadX(...); err != nil { return fmt.Errorf("failed to load X: %w", err) }`
statements of `LoadMetricsData`: the first failing category aborts the
run with its wrapped error and no later category is touched. -/
def loadCats (env : BQEnv) (d : MetricsData) : List Category → List BQCall × Option String
  | [] => ([], none)
  | c :: rest =>
    let step := loadTable env c (d.count c)
    match step.2 with
    | some e => (step.1, some ("failed to load " ++ catNoun c ++ ": " ++ e))
    | none =>
      let tail := loadCats env d rest
      (step.1 ++ tail.1, tail.2)

/-- `LoadMetricsData` (bigquery.go lines 93-119): dispatch the seven
categories in the fixed order images, nodes, insights, leases, builds,
pods, events. -/
def loadMetricsData (env : BQEnv) (d : MetricsData) : List BQCall × Option String :=
  loadCats env d loadOrder

/-- Oracle for the filesystem collaborator of the export sink: outcome of
`os.MkdirAll` and of each `os.Create` (`none` = success).  Encoding pure
in-memory records cannot fail and has no oracle. -/
structure ExportEnv where
  mkdirErr : Option GoErr
  createFileErr : String → Option GoErr

/-- An `ExportEnv` in which every call succeeds. -/
def ExportEnv.allOk : ExportEnv := ⟨none, fun _ => none⟩

/-- Observable filesystem calls issued by the export sink. -/
inductive ExpCall where
  | mkdirAll
  | createFile (name : String)
  | writeFile (name : String) (rows : Nat)
deriving DecidableEq, Repr

/-- The export directory's contents: file name to the list of JSON values
of the file's NDJSON lines. -/
def FileSys : Type := String → Option (List JValue)

/-- `exportTable` (export.go lines 96-153): `os.Create` the file (which
truncates any existing file of that name), then encode every record of
the category, one JSON value per line, in sequence order. -/
def exportTable (env : ExportEnv) (fs : FileSys) (c : Category) (lines : List JValue) :
    FileSys × List ExpCall × Option String :=
  match env.createFileErr (exportFileName c) with
  | some e =>
    (fs, [ExpCall.createFile (exportFileName c)],
     some ("failed to create " ++ exportFileName c ++ ": " ++ e.render))
  | none =>
    (fun name => if name = exportFileName c then some lines else fs name,
     [ExpCall.createFile (exportFileName c), ExpCall.writeFile (exportFileName c) lines.length],
     none)

/-- Sequential export over a list of categories, mirroring the chain of
`if len(data.X) > 0 { if err := exportTable(...); err != nil { return fmt.Errorf("failed to export X: %w", err) } }`
statements of `ExportMetricsFromGCS`: empty categories are skipped with no
call; the first failing category aborts with its wrapped error. -/
def exportCats (env : ExportEnv) (d : MetricsData) (fs : FileSys) :
    List Category → FileSys × List ExpCall × Option String
  | [] => (fs, [], none)
  | c :: rest =>
    if d.count c = 0 then exportCats env d fs rest
    else
      let step := exportTable env fs c (d.records c)
      match step.2.2 with
      | some e => (step.1, step.2.1, some ("failed to export " ++ catNoun c ++ ": " ++ e))
      | none =>
        let tail := exportCats env d step.1 rest
        (tail.1, step.2.1 ++ tail.2.1, tail.2.2)

/-- The dispatch part of `ExportMetricsFromGCS` (export.go lines 37-93),
after the GCS fetch and JSON decode have produced the document:
`os.MkdirAll` on the export directory, then the per-category export chain
in the fixed order images, nodes, leases, builds, pods, insights, events. -/
def exportMetrics (env : ExportEnv) (d : MetricsData) (fs : FileSys) :
    FileSys × List ExpCall × Option String :=
  match env.mkdirErr with
  | some e =>
    (fs, [ExpCall.mkdirAll], some ("failed to create export directory: " ++ e.render))
  | none =>
    let rest := exportCats env d fs exportOrder
    (rest.1, ExpCall.mkdirAll :: rest.2.1, rest.2.2)

/-- `MetricsFileName` constant of bigquery.go. -/
def MetricsFileName : List Char := "ci-operator-metrics.json".toList

/-- `IsMetricsFile` (bigquery.go lines 340-342):
`strings.HasSuffix(name, MetricsFileName)`, on strings as char lists. -/
def IsMetricsFile (name : List Char) : Bool :=
  MetricsFileName.isSuffixOf name

/-! Helper lemmas about the serialization boundary. -/

lemma mem_map_fst_ite (k : String) (c : Prop) [Decidable c] (kv : String × JValue) :
    (k ∈ (if c then ([] : List (String × JValue)) else [kv]).map Prod.fst) ↔ (¬c ∧ k = kv.1) := by
  split_ifs with h <;> simp [h]

/-- Characterization of the keys present in a marshalled lease record:
every `omitempty` field appears iff its value differs from the Go zero
value; `timestamp` always appears. -/
lemma mem_objKeys_marshalLease (k : String) (r : LeaseEventUnion) :
    k ∈ objKeys (marshalLease r) ↔
      (¬r.leaseName = "" ∧ k = "name") ∨
      (¬r.slice = "" ∧ k = "slice") ∨
      (¬r.region = "" ∧ k = "region") ∨
      (¬r.rawLeaseName = "" ∧ k = "raw_lease_name") ∨
      (¬r.acquisitionDurationSeconds = 0 ∧ k = "acquisition_duration_seconds") ∨
      (¬r.releaseDurationSeconds = 0 ∧ k = "release_duration_seconds") ∨
      (¬r.leasesRemainingAtAcquisition = 0 ∧ k = "leases_remaining_at_acquisition") ∨
      (¬r.leasesAvailableAtRelease = 0 ∧ k = "leases_available_at_release") ∨
      (¬r.leasesTotal = 0 ∧ k = "leases_total") ∨
      (r.released = true ∧ k = "released") ∨
      (¬r.error = "" ∧ k = "error") ∨
      k = "timestamp" := by
  simp [marshalLease, objKeys, mem_map_fst_ite]

/-- Characterization of the keys present in a marshalled image record:
the `omitempty` basic fields appear iff non-zero, while `start_time`,
`completion_time` (struct-typed, hence never omitted despite their
`omitempty` tags) and `timestamp` always appear. -/
lemma mem_objKeys_marshalImage (k : String) (r : ImageEventUnion) :
    k ∈ objKeys (marshalImage r) ↔
      (¬r.namespc = "" ∧ k = "namespace") ∨
      (¬r.imageStreamName = "" ∧ k = "image_stream_name") ∨
      (¬r.fullName = "" ∧ k = "full_name") ∨
      (¬r.tagName = "" ∧ k = "tag_name") ∨
      (¬r.fullTagName = "" ∧ k = "full_tag_name") ∨
      (¬r.sourceImage = "" ∧ k = "source_image") ∨
      (¬r.sourceImageKind = "" ∧ k = "source_image_kind") ∨
      k = "start_time" ∨
      k = "completion_time" ∨
      (¬r.durationSeconds = 0 ∧ k = "duration_seconds") ∨
      (¬r.retryCount = 0 ∧ k = "retry_count") ∨
      (r.success = true ∧ k = "success") ∨
      (¬r.error = "" ∧ k = "error") ∨
      (¬r.imageStreamDetails.isEmpty = true ∧ k = "image_stream_details") ∨
      (¬r.additionalContext.isEmpty = true ∧ k = "additional_context") ∨
      k = "timestamp" := by
  simp [marshalImage, objKeys, mem_map_fst_ite]

/-! Helper lemmas about the warehouse dispatch. -/

/-- All three BigQuery calls succeed for a category (create possibly
reporting an already-exists conflict, which the loader tolerates). -/
def catOk (env : BQEnv) (c : Category) : Prop :=
  env.inferSchemaErr c = none ∧
  (env.createTableErr c = none ∨ isAlreadyExistsError (env.createTableErr c) = true) ∧
  env.putErr c = none

lemma allOk_catOk (c : Category) : catOk BQEnv.allOk c := ⟨rfl, Or.inl rfl, rfl⟩

/-- The calls a fully successful category contributes to the trace. -/
def okTrace (d : MetricsData) (c : Category) : List BQCall :=
  if d.count c = 0 then []
  else [BQCall.createTable (tableName c), BQCall.put (tableName c) (d.count c)]

lemma loadTable_ok (env : BQEnv) (c : Category) (n : Nat) (h : catOk env c) :
    loadTable env c n =
      (if n = 0 then [] else [BQCall.createTable (tableName c), BQCall.put (tableName c) n],
       none) := by
  obtain ⟨h1, h2, h3⟩ := h
  by_cases hn : n = 0
  · simp [loadTable, hn]
  · rcases hc : env.createTableErr c with _ | e
    · simp [loadTable, hn, h1, hc, h3]
    · rcases h2 with h2 | h2
      · rw [hc] at h2; cases h2
      · rw [hc] at h2
        simp [loadTable, hn, h1, hc, h2, h3]

lemma loadTable_put_fail (env : BQEnv) (c : Category) (n : Nat) (e : GoErr)
    (hn : n ≠ 0)
    (h1 : env.inferSchemaErr c = none)
    (h2 : env.createTableErr c = none ∨ isAlreadyExistsError (env.createTableErr c) = true)
    (h3 : env.putErr c = some e) :
    loadTable env c n =
      ([BQCall.createTable (tableName c), BQCall.put (tableName c) n],
       some ("failed to insert " ++ catNoun c ++ ": " ++ e.render)) := by
  rcases hc : env.createTableErr c with _ | e'
  · simp [loadTable, hn, h1, hc, h3]
  · rcases h2 with h2 | h2
    · rw [hc] at h2; cases h2
    · rw [hc] at h2
      simp [loadTable, hn, h1, hc, h2, h3]

lemma loadTable_create_fail (env : BQEnv) (c : Category) (n : Nat) (e : GoErr)
    (hn : n ≠ 0)
    (h1 : env.inferSchemaErr c = none)
    (h2 : env.createTableErr c = some e)
    (h3 : isAlreadyExistsError (some e) = false) :
    loadTable env c n =
      ([BQCall.createTable (tableName c)],
       some ("failed to create table: " ++ e.render)) := by
  simp [loadTable, hn, h1, h2, h3]

lemma loadCats_append_ok (env : BQEnv) (d : MetricsData) (l1 l2 : List Category)
    (hb : ∀ c ∈ l1, catOk env c) :
    loadCats env d (l1 ++ l2) =
      (l1.flatMap (okTrace d) ++ (loadCats env d l2).1, (loadCats env d l2).2) := by
  induction l1 with
  | nil => simp
  | cons c l ih =>
    have hc := hb c (by simp)
    have hrest : ∀ x ∈ l, catOk env x := fun x hx => hb x (by simp [hx])
    by_cases h0 : d.count c = 0 <;>
      simp [loadCats, loadTable_ok env c _ hc, h0, okTrace, ih hrest]

lemma loadCats_all_ok (env : BQEnv) (d : MetricsData) (l : List Category)
    (hb : ∀ c ∈ l, catOk env c) :
    loadCats env d l = (l.flatMap (okTrace d), none) := by
  have h := loadCats_append_ok env d l [] hb
  simpa [loadCats] using h

/-- Destination tables created along a trace, in call order. -/
def createdTableNames : List BQCall → List String
  | [] => []
  | .createTable t :: rest => t :: createdTableNames rest
  | .put _ _ :: rest => createdTableNames rest

lemma createdTableNames_append (a b : List BQCall) :
    createdTableNames (a ++ b) = createdTableNames a ++ createdTableNames b := by
  induction a with
  | nil => rfl
  | cons x rest ih => cases x <;> simp [createdTableNames, ih]

lemma createdTableNames_loadCats (env : BQEnv) (d : MetricsData) (l : List Category)
    (hb : ∀ c ∈ l, catOk env c) :
    createdTableNames (loadCats env d l).1 =
      (l.filter (fun c => !(d.count c == 0))).map tableName := by
  rw [loadCats_all_ok env d l hb]
  induction l with
  | nil => rfl
  | cons c rest ih =>
    by_cases h0 : d.count c = 0 <;>
      simp [okTrace, h0, createdTableNames_append, createdTableNames,
            ih (fun x hx => hb x (by simp [hx]))]

/-! Helper lemmas about the file-export dispatch. -/

/-- The content the export chain leaves in a file: the records of the
last non-empty category in the list whose export file has that name (or
nothing, when no such category exists). -/
def writtenContent (d : MetricsData) : List Category → String → Option (List JValue)
  | [], _ => none
  | c :: rest, name =>
    match writtenContent d rest name with
    | some v => some v
    | none =>
      if d.count c ≠ 0 ∧ exportFileName c = name then some (d.records c) else none

lemma exportCats_apply (env : ExportEnv) (d : MetricsData) (l : List Category)
    (fs : FileSys) (name : String)
    (hcf : ∀ f, env.createFileErr f = none) :
    (exportCats env d fs l).1 name =
      match writtenContent d l name with
      | some v => some v
      | none => fs name := by
  induction l generalizing fs with
  | nil => simp [exportCats, writtenContent]
  | cons c rest ih =>
    by_cases h0 : d.count c = 0
    · rw [show writtenContent d (c :: rest) name = writtenContent d rest name by
        simp [writtenContent, h0]
        cases writtenContent d rest name <;> simp]
      simp only [exportCats, if_pos h0]
      exact ih fs
    · simp only [exportCats, if_neg h0, exportTable, hcf (exportFileName c)]
      rw [ih]
      cases hw : writtenContent d rest name with
      | some v => simp [writtenContent, hw]
      | none =>
        by_cases hname : name = exportFileName c
        · subst hname
          simp [writtenContent, hw, h0]
        · simp [writtenContent, hw, h0, hname, eq_comm]

lemma exportCats_all_ok_err (env : ExportEnv) (d : MetricsData) (l : List Category)
    (fs : FileSys) (hcf : ∀ f, env.createFileErr f = none) :
    (exportCats env d fs l).2.2 = none := by
  induction l generalizing fs with
  | nil => rfl
  | cons c rest ih =>
    by_cases h0 : d.count c = 0
    · simp only [exportCats, if_pos h0]
      exact ih fs
    · simp only [exportCats, if_neg h0, exportTable, hcf (exportFileName c)]
      exact ih _

/-- Export files created along a trace, in call order. -/
def createdFileNames : List ExpCall → List String
  | [] => []
  | .createFile f :: rest => f :: createdFileNames rest
  | .mkdirAll :: rest => createdFileNames rest
  | .writeFile _ _ :: rest => createdFileNames rest

lemma createdFileNames_exportCats (env : ExportEnv) (d : MetricsData) (l : List Category)
    (fs : FileSys) (hcf : ∀ f, env.createFileErr f = none) :
    createdFileNames (exportCats env d fs l).2.1 =
      (l.filter (fun c => !(d.count c == 0))).map exportFileName := by
  induction l generalizing fs with
  | nil => rfl
  | cons c rest ih =>
    by_cases h0 : d.count c = 0
    · simp only [exportCats, if_pos h0]
      simpa [h0] using ih fs
    · simp only [exportCats, if_neg h0, exportTable, hcf (exportFileName c)]
      simp [createdFileNames, h0, ih]

/-- An export directory with no files. -/
def emptyFS : FileSys := fun _ => none

/-- C5: for every string n, IsMetricsFile(n) returns true if and only if
n ends with the literal suffix ci-operator-metrics.json; in particular it
is false for "foo.json" and true for "path/to/ci-operator-metrics.json". -/
theorem C5_isMetricsFile_iff_suffix :
    (∀ n : List Char, IsMetricsFile n = true ↔ ∃ p, n = p ++ MetricsFileName)
    ∧ IsMetricsFile "foo.json".toList = false
    ∧ IsMetricsFile "path/to/ci-operator-metrics.json".toList = true := by
  refine ⟨fun n => ?_, by decide, by decide⟩
  unfold IsMetricsFile
  rw [List.isSuffixOf_iff_suffix]
  exact ⟨fun ⟨t, ht⟩ => ⟨t, ht.symm⟩, fun ⟨p, hp⟩ => ⟨p, hp.symm⟩⟩

/-- C5 witness: the universally quantified part applied at the concrete
name "path/to/ci-operator-metrics.json". -/
theorem C5_isMetricsFile_iff_suffix_witness :
    ∃ p, "path/to/ci-operator-metrics.json".toList = p ++ MetricsFileName :=
  (C5_isMetricsFile_iff_suffix.1 "path/to/ci-operator-metrics.json".toList).mp
    C5_isMetricsFile_iff_suffix.2.2

/-- C6: for a document in which all seven category sequences are empty,
the warehouse dispatch returns success with an empty call trace (no
table-creation call, no insert call), and the file export returns success
having issued only the `os.MkdirAll` call (no file creation, no write). -/
theorem C6_empty_document (env : BQEnv) (eenv : ExportEnv) (d : MetricsData) (fs : FileSys)
    (hempty : ∀ c, d.count c = 0) (hmk : eenv.mkdirErr = none) :
    loadMetricsData env d = ([], none)
    ∧ (exportMetrics eenv d fs).1 = fs
    ∧ (exportMetrics eenv d fs).2.1 = [ExpCall.mkdirAll]
    ∧ (exportMetrics eenv d fs).2.2 = none := by
  refine ⟨?_, ?_, ?_, ?_⟩
  · simp [loadMetricsData, loadOrder, loadCats, loadTable, hempty]
  · simp [exportMetrics, hmk, exportOrder, exportCats, hempty]
  · simp [exportMetrics, hmk, exportOrder, exportCats, hempty]
  · simp [exportMetrics, hmk, exportOrder, exportCats, hempty]

/-- C6 witness: the empty document, dispatched with all-succeeding
collaborators. -/
theorem C6_empty_document_witness :
    loadMetricsData BQEnv.allOk MetricsData.empty = ([], none)
    ∧ (exportMetrics ExportEnv.allOk MetricsData.empty emptyFS).2.1 = [ExpCall.mkdirAll]
    ∧ (exportMetrics ExportEnv.allOk MetricsData.empty emptyFS).2.2 = none := by
  have h := C6_empty_document BQEnv.allOk ExportEnv.allOk MetricsData.empty emptyFS
    (fun c => by cases c <;> rfl) rfl
  exact ⟨h.1, h.2.2.1, h.2.2.2⟩

/-- C2: when the bulk write of category X fails (all categories before X
in the fixed order images, nodes, insights, leases, builds, pods, events
having succeeded), `LoadMetricsData` returns the error of X wrapped with
X's literal category name, the trace consists of exactly the create and
put calls of every non-empty category before X (each put carrying the
category's full record count; empty categories are skipped, all zero of
their records being written) followed by X's create and failed put, and
no call of any kind is issued for any category after X. -/
theorem C2_write_failure_isolation (env : BQEnv) (d : MetricsData)
    (l1 l2 : List Category) (X : Category) (e : GoErr)
    (horder : loadOrder = l1 ++ X :: l2)
    (hb : ∀ c ∈ l1, catOk env c)
    (hn : d.count X ≠ 0)
    (h1 : env.inferSchemaErr X = none)
    (h2 : env.createTableErr X = none ∨ isAlreadyExistsError (env.createTableErr X) = true)
    (h3 : env.putErr X = some e) :
    loadMetricsData env d =
      (l1.flatMap (okTrace d) ++
        [BQCall.createTable (tableName X), BQCall.put (tableName X) (d.count X)],
       some ("failed to load " ++ catNoun X ++ ": " ++
         ("failed to insert " ++ catNoun X ++ ": " ++ e.render)))
    ∧ ∀ c ∈ l1, d.count c ≠ 0 →
        BQCall.put (tableName c) (d.count c) ∈ (loadMetricsData env d).1 := by
  have hX := loadTable_put_fail env X (d.count X) e hn h1 h2 h3
  have hmain :
      loadMetricsData env d =
        (l1.flatMap (okTrace d) ++
          [BQCall.createTable (tableName X), BQCall.put (tableName X) (d.count X)],
         some ("failed to load " ++ catNoun X ++ ": " ++
           ("failed to insert " ++ catNoun X ++ ": " ++ e.render))) := by
    simp only [loadMetricsData]
    rw [horder, loadCats_append_ok env d l1 (X :: l2) hb]
    simp [loadCats, hX]
  refine ⟨hmain, fun c hc hcount => ?_⟩
  rw [hmain]
  apply List.mem_append_left
  rw [List.mem_flatMap]
  exact ⟨c, hc, by simp [okTrace, hcount]⟩

/-- BigQuery oracle whose leases insert fails; everything else succeeds. -/
def envPutFailLeases : BQEnv :=
  ⟨fun _ => none, fun _ => none,
   fun c => if c = Category.leases then some (GoErr.simpleError "insert failed") else none⟩

/-- BigQuery oracle whose every table creation reports an HTTP 409
conflict; inserts succeed. -/
def envAll409 : BQEnv :=
  ⟨fun _ => none, fun _ => some (GoErr.apiError 409 "conflict"), fun _ => none⟩

/-- BigQuery oracle whose leases table creation fails with a
non-conflict error; everything else succeeds. -/
def envCreateFailLeases : BQEnv :=
  ⟨fun _ => none,
   fun c => if c = Category.leases then some (GoErr.simpleError "backend down") else none,
   fun _ => none⟩

/-- A document whose only record is one lease. -/
def docLeaseOnly : MetricsData := ⟨[], [], [LeaseEventUnion.zero], [], [], [], []⟩

/-- A document with one image record. -/
def docImgOnly : MetricsData := ⟨[], [ImageEventUnion.zero], [], [], [], [], []⟩

/-- A document with one image record and one lease record. -/
def docImgLease : MetricsData :=
  ⟨[], [ImageEventUnion.zero], [LeaseEventUnion.zero], [], [], [], []⟩

/-- C2 witness: the spec's own scenario — leases non-empty, the leases
insert failing; images, nodes, insights are empty, builds, pods, events
come after leases and are untouched. -/
theorem C2_write_failure_isolation_witness :
    loadMetricsData envPutFailLeases docLeaseOnly =
      ([BQCall.createTable "leases", BQCall.put "leases" 1],
       some "failed to load leases: failed to insert leases: insert failed") := by
  have h := (C2_write_failure_isolation envPutFailLeases docLeaseOnly
    [Category.images, Category.nodes, Category.insights]
    [Category.builds, Category.pods, Category.events]
    Category.leases (GoErr.simpleError "insert failed")
    rfl (by intro c hc; fin_cases hc <;> exact ⟨rfl, Or.inl rfl, rfl⟩)
    (by decide) rfl (Or.inl rfl) rfl).1
  exact h.trans (by decide)

/-- C4: (1) a table-creation call answered with an HTTP 409 conflict
("already exists") makes the per-category load behave identically to a
run in which that creation succeeded afresh; (2) when every creation
either succeeds or reports a conflict and every insert succeeds, the
whole dispatch reports overall success; (3) any other creation failure
aborts the entire dispatch, wrapped with the failing category's name,
with no call issued for any remaining category. -/
theorem C4_conflict_is_success :
    (∀ (env : BQEnv) (c : Category) (n : Nat) (e : GoErr),
      env.createTableErr c = some e → isAlreadyExistsError (some e) = true →
      loadTable env c n =
        loadTable
          ⟨env.inferSchemaErr, fun x => if x = c then none else env.createTableErr x,
           env.putErr⟩ c n)
    ∧ (∀ (env : BQEnv) (d : MetricsData),
        (∀ c, env.inferSchemaErr c = none) →
        (∀ c, env.createTableErr c = none ∨ isAlreadyExistsError (env.createTableErr c) = true) →
        (∀ c, env.putErr c = none) →
        (loadMetricsData env d).2 = none)
    ∧ (∀ (env : BQEnv) (d : MetricsData) (l1 l2 : List Category) (X : Category) (e : GoErr),
        loadOrder = l1 ++ X :: l2 →
        (∀ c ∈ l1, catOk env c) →
        d.count X ≠ 0 →
        env.inferSchemaErr X = none →
        env.createTableErr X = some e →
        isAlreadyExistsError (some e) = false →
        loadMetricsData env d =
          (l1.flatMap (okTrace d) ++ [BQCall.createTable (tableName X)],
           some ("failed to load " ++ catNoun X ++ ": " ++
             ("failed to create table: " ++ e.render)))) := by
  refine ⟨fun env c n e hce h409 => ?_, fun env d hi hc hp => ?_, ?_⟩
  · by_cases hn : n = 0
    · simp [loadTable, hn]
    · rcases hinf : env.inferSchemaErr c with _ | ei <;>
        simp [loadTable, hn, hinf, hce, h409]
  · rw [loadMetricsData, loadCats_all_ok env d loadOrder (fun c _ => ⟨hi c, hc c, hp c⟩)]
  · intro env d l1 l2 X e horder hb hn h1 h2 h3
    have hX := loadTable_create_fail env X (d.count X) e hn h1 h2 h3
    simp only [loadMetricsData]
    rw [horder, loadCats_append_ok env d l1 (X :: l2) hb]
    simp [loadCats, hX]

/-- C4 witness: part 1 at a 409 conflict on images; part 2 with every
creation reporting a conflict (dispatch still succeeds); part 3 with a
non-conflict creation failure on leases after a successful images load. -/
theorem C4_conflict_is_success_witness :
    loadTable envAll409 Category.images 1 =
      loadTable
        ⟨envAll409.inferSchemaErr,
         fun x => if x = Category.images then none else envAll409.createTableErr x,
         envAll409.putErr⟩ Category.images 1
    ∧ (loadMetricsData envAll409 docImgOnly).2 = none
    ∧ loadMetricsData envCreateFailLeases docImgLease =
      ([BQCall.createTable "images", BQCall.put "images" 1, BQCall.createTable "leases"],
       some "failed to load leases: failed to create table: backend down") := by
  refine ⟨?_, ?_, ?_⟩
  · exact C4_conflict_is_success.1 envAll409 Category.images 1
      (GoErr.apiError 409 "conflict") rfl rfl
  · exact C4_conflict_is_success.2.1 envAll409 docImgOnly
      (fun c => rfl) (fun c => Or.inr rfl) (fun c => rfl)
  · have h := C4_conflict_is_success.2.2 envCreateFailLeases docImgLease
      [Category.images, Category.nodes, Category.insights]
      [Category.builds, Category.pods, Category.events]
      Category.leases (GoErr.simpleError "backend down")
      rfl (by intro c hc; fin_cases hc <;> exact ⟨rfl, Or.inl rfl, rfl⟩)
      (by decide) rfl rfl rfl
    exact h.trans (by decide)

/-- A document with every one of the seven categories non-empty. -/
def docSeven : MetricsData :=
  ⟨[JValue.jstr "e"], [ImageEventUnion.zero], [LeaseEventUnion.zero],
   [JValue.jstr "n"], [JValue.jstr "b"], [JValue.jstr "p"], [JValue.jstr "i"]⟩

/-- Appends the ".json" extension to every name of a list. -/
def appendJsonSuffix : List String → List String
  | [] => []
  | s :: rest => (s ++ ".json") :: appendJsonSuffix rest

/-- C1 counterexample: on a document with all seven categories non-empty
the warehouse sink creates its destinations in the order images, nodes,
test_platform_insights, leases, openshift_builds, pods, events, while the
file sink creates its files in the order images, nodes, leases,
openshift_builds, pods, test_platform_insights, events — so the two sinks
do not iterate the seven categories in the same order. -/
theorem C1_counterexample_iteration_order :
    appendJsonSuffix (createdTableNames (loadMetricsData BQEnv.allOk docSeven).1) ≠
      createdFileNames (exportMetrics ExportEnv.allOk docSeven emptyFS).2.1 := by
  decide

/-- C1 as amended: the two sinks consume an identical `MetricsData`
document and apply an identical category-to-destination-name mapping (the
export file of a category is its destination name plus ".json"), each
processing exactly the non-empty categories and skipping the empty ones;
but their iteration orders, while permutations of the same seven
categories, differ: the warehouse sink handles test_platform_insights
third and the file sink handles it sixth. -/
theorem C1_amended_same_mapping_different_order :
    (∀ c, exportFileName c = tableName c ++ ".json")
    ∧ loadOrder = [Category.images, Category.nodes, Category.insights, Category.leases,
        Category.builds, Category.pods, Category.events]
    ∧ exportOrder = [Category.images, Category.nodes, Category.leases, Category.builds,
        Category.pods, Category.insights, Category.events]
    ∧ loadOrder.Perm exportOrder
    ∧ loadOrder ≠ exportOrder
    ∧ (∀ d : MetricsData,
        createdTableNames (loadMetricsData BQEnv.allOk d).1 =
          (loadOrder.filter (fun c => !(d.count c == 0))).map tableName)
    ∧ (∀ (d : MetricsData) (fs : FileSys),
        createdFileNames (exportMetrics ExportEnv.allOk d fs).2.1 =
          (exportOrder.filter (fun c => !(d.count c == 0))).map exportFileName) := by
  refine ⟨fun c => by cases c <;> rfl, rfl, rfl, by decide, by decide,
    fun d => ?_, fun d fs => ?_⟩
  · exact createdTableNames_loadCats BQEnv.allOk d loadOrder (fun c _ => allOk_catOk c)
  · have h := createdFileNames_exportCats ExportEnv.allOk d exportOrder fs (fun _ => rfl)
    simpa [exportMetrics, ExportEnv.allOk, createdFileNames] using h

/-- C3 counterexample: on the zero image record, the unset optional field
`start_time` (value-typed `time.Time` with `omitempty`) does appear in
the serialized output; and a lease record whose `released` field is
explicitly assigned its zero value is the very same record as one in
which it was never set, so the two serializations are identical rather
than distinguishable. -/
theorem C3_counterexample_absence :
    "start_time" ∈ objKeys (marshalImage ImageEventUnion.zero)
    ∧ ImageEventUnion.zero.startTime = GoTime.zero
    ∧ marshalLease { LeaseEventUnion.zero with released := false } =
        marshalLease LeaseEventUnion.zero := by
  exact ⟨by decide, rfl, rfl⟩

/-- C3 as amended: at the serialization boundary a basic-typed
(string/number/int/bool/map) optional field appears iff its value differs
from the Go zero value — so a zero-valued field is omitted exactly like
an unset one and is not distinguishable from it — while the struct-typed
optional fields `start_time` and `completion_time` of the image union are
always emitted even when zero, and `timestamp` is always emitted. -/
theorem C3_amended_presence_iff_nonzero :
    (∀ (r : LeaseEventUnion) (k : String),
      k ∈ objKeys (marshalLease r) ↔
        (¬r.leaseName = "" ∧ k = "name") ∨
        (¬r.slice = "" ∧ k = "slice") ∨
        (¬r.region = "" ∧ k = "region") ∨
        (¬r.rawLeaseName = "" ∧ k = "raw_lease_name") ∨
        (¬r.acquisitionDurationSeconds = 0 ∧ k = "acquisition_duration_seconds") ∨
        (¬r.releaseDurationSeconds = 0 ∧ k = "release_duration_seconds") ∨
        (¬r.leasesRemainingAtAcquisition = 0 ∧ k = "leases_remaining_at_acquisition") ∨
        (¬r.leasesAvailableAtRelease = 0 ∧ k = "leases_available_at_release") ∨
        (¬r.leasesTotal = 0 ∧ k = "leases_total") ∨
        (r.released = true ∧ k = "released") ∨
        (¬r.error = "" ∧ k = "error") ∨
        k = "timestamp")
    ∧ (∀ (r : ImageEventUnion) (k : String),
      k ∈ objKeys (marshalImage r) ↔
        (¬r.namespc = "" ∧ k = "namespace") ∨
        (¬r.imageStreamName = "" ∧ k = "image_stream_name") ∨
        (¬r.fullName = "" ∧ k = "full_name") ∨
        (¬r.tagName = "" ∧ k = "tag_name") ∨
        (¬r.fullTagName = "" ∧ k = "full_tag_name") ∨
        (¬r.sourceImage = "" ∧ k = "source_image") ∨
        (¬r.sourceImageKind = "" ∧ k = "source_image_kind") ∨
        k = "start_time" ∨
        k = "completion_time" ∨
        (¬r.durationSeconds = 0 ∧ k = "duration_seconds") ∨
        (¬r.retryCount = 0 ∧ k = "retry_count") ∨
        (r.success = true ∧ k = "success") ∨
        (¬r.error = "" ∧ k = "error") ∨
        (¬r.imageStreamDetails.isEmpty = true ∧ k = "image_stream_details") ∨
        (¬r.additionalContext.isEmpty = true ∧ k = "additional_context") ∨
        k = "timestamp") :=
  ⟨fun r k => mem_objKeys_marshalLease k r, fun r k => mem_objKeys_marshalImage k r⟩

/-- C9 counterexample: `completion_time` is not the top-level timestamp
field, holds its zero value on the zero image record, and still appears
in the serialized output — so it is not omitted when zero. -/
theorem C9_counterexample_time_fields :
    "completion_time" ∈ objKeys (marshalImage ImageEventUnion.zero)
    ∧ ¬("completion_time" = "timestamp")
    ∧ ImageEventUnion.zero.completionTime = GoTime.zero := by
  exact ⟨by decide, by decide, rfl⟩

/-- C9 as amended: the top-level `timestamp` field is always present in
the serialized output of both union records, even when zero; on the zero
lease record every other field is omitted; on the zero image record every
other field is omitted except `start_time` and `completion_time`, which
are always present despite their `omitempty` tags because `time.Time` is
a struct type. -/
theorem C9_amended_timestamp_always_present :
    (∀ r : LeaseEventUnion, "timestamp" ∈ objKeys (marshalLease r))
    ∧ (∀ r : ImageEventUnion, "timestamp" ∈ objKeys (marshalImage r)
        ∧ "start_time" ∈ objKeys (marshalImage r)
        ∧ "completion_time" ∈ objKeys (marshalImage r))
    ∧ (∀ k, k ∈ objKeys (marshalLease LeaseEventUnion.zero) ↔ k = "timestamp")
    ∧ (∀ k, k ∈ objKeys (marshalImage ImageEventUnion.zero) ↔
        (k = "start_time" ∨ k = "completion_time" ∨ k = "timestamp")) := by
  refine ⟨fun r => ?_, fun r => ⟨?_, ?_, ?_⟩, fun k => ?_, fun k => ?_⟩
  · simp [mem_objKeys_marshalLease]
  · simp [mem_objKeys_marshalImage]
  · simp [mem_objKeys_marshalImage]
  · simp [mem_objKeys_marshalImage]
  · simp [mem_objKeys_marshalLease, LeaseEventUnion.zero]
  · simp [mem_objKeys_marshalImage, ImageEventUnion.zero]

/-- C7: exporting a document whose only record is one lease union record
with no release-side field set produces a leases.json holding exactly
that record's serialization, and that serialization contains neither the
release_duration_seconds key nor the leases_available_at_release key. -/
theorem C7_release_fields_omitted (env : ExportEnv) (fs : FileSys) (r : LeaseEventUnion)
    (hmk : env.mkdirErr = none)
    (hcf : ∀ f, env.createFileErr f = none)
    (hrel : r.releaseDurationSeconds = 0)
    (havail : r.leasesAvailableAtRelease = 0) :
    (exportMetrics env ⟨[], [], [r], [], [], [], []⟩ fs).1 "leases.json" =
        some [marshalLease r]
    ∧ "release_duration_seconds" ∉ objKeys (marshalLease r)
    ∧ "leases_available_at_release" ∉ objKeys (marshalLease r) := by
  refine ⟨?_, ?_, ?_⟩
  · simp only [exportMetrics, hmk]
    rw [exportCats_apply env _ exportOrder fs "leases.json" hcf]
    simp [writtenContent, exportOrder, exportFileName, MetricsData.count, MetricsData.records]
  · rw [mem_objKeys_marshalLease]
    simp [hrel]
  · rw [mem_objKeys_marshalLease]
    simp [havail]

/-- A lease union record with only acquisition-side fields set. -/
def leaseAcq : LeaseEventUnion :=
  { LeaseEventUnion.zero with
      leaseName := "aws-quota-slice"
      slice := "us-east-1"
      acquisitionDurationSeconds := 3
      leasesRemainingAtAcquisition := 5
      leasesTotal := 10
      timestamp := ⟨100⟩ }

/-- C7 witness: the acquisition-only lease record exported through the
file sink. -/
theorem C7_release_fields_omitted_witness :
    (exportMetrics ExportEnv.allOk ⟨[], [], [leaseAcq], [], [], [], []⟩ emptyFS).1 "leases.json" =
        some [marshalLease leaseAcq]
    ∧ "release_duration_seconds" ∉ objKeys (marshalLease leaseAcq)
    ∧ "leases_available_at_release" ∉ objKeys (marshalLease leaseAcq) :=
  C7_release_fields_omitted ExportEnv.allOk emptyFS leaseAcq rfl (fun _ => rfl) rfl rfl

/-- C10: with a working filesystem, running the file export twice for the
same document and target directory leaves exactly the same per-category
file contents as running it once — each category file is created anew by
`os.Create` (which truncates) rather than appended to — and the second
run also reports success. -/
theorem C10_export_idempotent (env : ExportEnv) (d : MetricsData) (fs : FileSys)
    (hmk : env.mkdirErr = none) (hcf : ∀ f, env.createFileErr f = none) :
    (exportMetrics env d (exportMetrics env d fs).1).1 = (exportMetrics env d fs).1
    ∧ (exportMetrics env d (exportMetrics env d fs).1).2.2 = none := by
  constructor
  · funext name
    simp only [exportMetrics, hmk]
    rw [exportCats_apply env d exportOrder _ name hcf]
    cases hw : writtenContent d exportOrder name with
    | some v => simp [hw, exportCats_apply env d exportOrder fs name hcf]
    | none => simp only [hw]
  · simp only [exportMetrics, hmk]
    exact exportCats_all_ok_err env d exportOrder _ hcf

/-- C10 witness: the all-categories document exported twice into the same
directory. -/
theorem C10_export_idempotent_witness :
    (exportMetrics ExportEnv.allOk docSeven
        (exportMetrics ExportEnv.allOk docSeven emptyFS).1).1 =
      (exportMetrics ExportEnv.allOk docSeven emptyFS).1
    ∧ (exportMetrics ExportEnv.allOk docSeven
        (exportMetrics ExportEnv.allOk docSeven emptyFS).1).2.2 = none :=
  C10_export_idempotent ExportEnv.allOk docSeven emptyFS rfl (fun _ => rfl)

/-- C8: exporting a document with N pods records produces a pods.json
whose decoded NDJSON content is exactly the original pods sequence —
the same N records, field-for-field identical JSON values, in the
original order. -/
theorem C8_pods_round_trip (env : ExportEnv) (d : MetricsData) (fs : FileSys)
    (hmk : env.mkdirErr = none) (hcf : ∀ f, env.createFileErr f = none)
    (hpods : d.pods ≠ []) :
    (exportMetrics env d fs).1 "pods.json" = some d.pods
    ∧ (exportMetrics env d fs).2.2 = none
    ∧ ∀ l, (exportMetrics env d fs).1 "pods.json" = some l →
        l.length = d.pods.length ∧ l = d.pods := by
  have hlen : ¬d.pods.length = 0 := by simpa [List.length_eq_zero] using hpods
  have hmain : (exportMetrics env d fs).1 "pods.json" = some d.pods := by
    simp only [exportMetrics, hmk]
    rw [exportCats_apply env d exportOrder fs "pods.json" hcf]
    simp [writtenContent, exportOrder, exportFileName, MetricsData.count,
          MetricsData.records, hlen]
  refine ⟨hmain, ?_, fun l hl => ?_⟩
  · simp only [exportMetrics, hmk]
    exact exportCats_all_ok_err env d exportOrder fs hcf
  · rw [hmain] at hl
    cases hl
    exact ⟨rfl, rfl⟩

/-- A document with two pods records. -/
def docPodsTwo : MetricsData :=
  ⟨[], [], [], [], [], [JValue.jstr "pod-a", JValue.jstr "pod-b"], []⟩

/-- C8 witness: the two-pods document exported through the file sink. -/
theorem C8_pods_round_trip_witness :
    (exportMetrics ExportEnv.allOk docPodsTwo emptyFS).1 "pods.json" =
        some [JValue.jstr "pod-a", JValue.jstr "pod-b"]
    ∧ (exportMetrics ExportEnv.allOk docPodsTwo emptyFS).2.2 = none :=
  ⟨(C8_pods_round_trip ExportEnv.allOk docPodsTwo emptyFS rfl (fun _ => rfl)
      (List.cons_ne_nil _ _)).1,
   (C8_pods_round_trip ExportEnv.allOk docPodsTwo emptyFS rfl (fun _ => rfl)
      (List.cons_ne_nil _ _)).2.1⟩

end CIMetricsBQ
